import Mathlib

/-
Verification of the waka-airtable-sync reconciliation engine.

Shallow embedding of the three scripts of the repository:
  * src/unnamed/part_001 : the batched sync engine (conflict reducer keyed by
    email, OR-formula lookup batches, Map-based pending-update accumulator,
    bulk writes of capacity 10, degraded-run exit code);
  * src/index.js         : the per-user variant (array-based accumulator,
    per-user lookups whose failures are logged without setting the error flag);
  * src/unnamed/part_000 : the pagination skeleton (stops only on an empty
    page and advances the offset after every non-empty page).

Timestamps (JS Date values) are modelled as integers (milliseconds since the
epoch); the JS comparison `a > b` where either side may be null coerces null
to 0, which `jsGtOpt` reproduces.  JS runtime values that can reach the
array-field sanitizer are modelled by the inductive type `JsVal`; fallible JS
evaluation (a thrown TypeError) is modelled with `Except String`.
-/

namespace WakaSync

/-! ## JS value model and array-field sanitization (sanitizeAndSerialize) -/

/-- A JS runtime value, as far as the sanitizer can observe it.  Numbers are
modelled as rationals (NaN is not modelled; no claim depends on it). -/
inductive JsVal where
  | vnull : JsVal
  | vundef : JsVal
  | vbool : Bool → JsVal
  | vnum : Rat → JsVal
  | vstr : String → JsVal
  | varr : List JsVal → JsVal

/-- JS truthiness: null, undefined, false, 0 and the empty string are falsy;
every object (in particular every array) is truthy. -/
def truthy : JsVal → Bool
  | .vnull => false
  | .vundef => false
  | .vbool b => b
  | .vnum q => decide (q ≠ 0)
  | .vstr s => decide (s ≠ "")
  | .varr _ => true

/-- ASCII whitespace recognised by `String.prototype.trim` (the Unicode space
classes JS also trims never occur in the machine/installation identifiers). -/
def isWs (c : Char) : Bool :=
  c = ' ' || c = '\t' || c = '\n' || c = '\r' || c = '\x0b' || c = '\x0c'

/-- Model of `s.trim()`: drop leading and trailing whitespace. -/
def jsTrim (s : String) : String :=
  String.mk (((s.data.dropWhile isWs).reverse.dropWhile isWs).reverse)

/-- Model of `s.replace(/\|/g, "")`: delete every pipe character. -/
def stripPipes (s : String) : String :=
  String.mk (s.data.filter (fun c => decide (c ≠ '|')))

/-- One evaluation of the filter callback
`item && item.trim() !== "" && item.replace(/\|/g, "").trim() !== ""`
from sanitizeAndSerialize (src/unnamed/part_001 lines 29-33, src/index.js
lines 28-32).  A falsy item short-circuits to `false`; on a truthy string the
two trim tests decide the outcome; on a truthy non-string `item.trim` is
undefined and the call throws a TypeError.  The result carries the surviving
string so that the surviving list is a `List String` (the filter provably
keeps only strings). -/
def itemKeep : JsVal → Except String (Option String)
  | v =>
    if truthy v = false then .ok none
    else
      match v with
      | .vstr s =>
          .ok (if jsTrim s ≠ "" ∧ jsTrim (stripPipes s) ≠ "" then some s else none)
      | _ => .error "TypeError: item.trim is not a function"

/-- `array.filter(item => ...)` over the list: the callback is applied left
to right and the first thrown TypeError propagates. -/
def runFilter : List JsVal → Except String (List String)
  | [] => .ok []
  | v :: vs =>
      match itemKeep v with
      | .error e => .error e
      | .ok hd =>
          match runFilter vs with
          | .error e => .error e
          | .ok tl =>
              match hd with
              | some s => .ok (s :: tl)
              | none => .ok tl

/-- Lower-case hex digit. -/
def hexDigit (n : Nat) : Char :=
  if n < 10 then Char.ofNat (48 + n) else Char.ofNat (87 + n)

/-- Four-digit hex rendering used by JSON string escapes. -/
def hex4 (n : Nat) : String :=
  String.mk [hexDigit ((n / 4096) % 16), hexDigit ((n / 256) % 16),
             hexDigit ((n / 16) % 16), hexDigit (n % 16)]

/-- JSON escape of one character, as produced by JSON.stringify. -/
def jsonEscapeChar (c : Char) : String :=
  if c = '\"' then "\\\""
  else if c = '\\' then "\\\\"
  else if c = '\n' then "\\n"
  else if c = '\t' then "\\t"
  else if c = '\r' then "\\r"
  else if c = '\x08' then "\\b"
  else if c = '\x0c' then "\\f"
  else if c.toNat < 32 then "\\u" ++ hex4 c.toNat
  else String.mk [c]

/-- JSON string literal for `s`. -/
def jsonQuote (s : String) : String :=
  "\"" ++ String.join (s.data.map jsonEscapeChar) ++ "\""

/-- `JSON.stringify(filtered, null, 2)` for a flat array of strings: opening
bracket, each element on its own line indented two spaces, closing bracket. -/
def serializeIndent2 (l : List String) : String :=
  "[\n" ++ String.intercalate ",\n" (l.map (fun s => "  " ++ jsonQuote s)) ++ "\n]"

/-- sanitizeAndSerialize (src/unnamed/part_001 lines 26-37, src/index.js
lines 25-36): on an array, filter the items and either serialize the
survivors or return null when nothing survives; on any non-array input
return null. -/
def sanitizeAndSerialize : JsVal → Except String (Option String)
  | .varr xs => do
      let filtered ← runFilter xs
      pure (if filtered.length > 0 then some (serializeIndent2 filtered) else none)
  | _ => .ok none

/-! ## Data model: aggregate rows and JS map primitives -/

/-- One aggregate row of the source query (one record of `res.rows`).  The
JS field names starting with a digit (for example `30_day_active_machine_count`)
are rendered with a `day30_` prefix.  Counters and hour totals arrive as JS
numbers after the `Number(...)` conversion and are modelled as rationals;
`first_heartbeat` and `last_heartbeat` are Dates or null, modelled as
`Option Int` (milliseconds). -/
structure AggRow where
  created_at : Int
  id : String
  name : String
  email : String
  first_heartbeat : Option Int
  last_heartbeat : Option Int
  known_machine_count : Rat
  known_machines : JsVal
  day30_active_machine_count : Rat
  day30_active_machines : JsVal
  known_installation_count : Rat
  known_installations : JsVal
  day30_active_installation_count : Rat
  day30_active_installations : JsVal
  total_hours_logged : Rat
  day30_hours_logged : Rat

/-- JS `a > b` on Date-or-null values: null coerces to 0, a Date to its
millisecond value. -/
def jsGtOpt (a b : Option Int) : Bool :=
  decide (b.getD 0 < a.getD 0)

/-- `m[key]` on a JS object used as a string-keyed map, modelled as an
association list in insertion order. -/
def getEntry {β : Type} : List (String × β) → String → Option β
  | [], _ => none
  | (k, v) :: rest, key => if k = key then some v else getEntry rest key

/-- `m[key] = value`: replace the entry in place when the key is present,
append it otherwise (JS objects and Maps keep insertion order). -/
def setEntry {β : Type} : List (String × β) → String → β → List (String × β)
  | [], key, value => [(key, value)]
  | (k, v) :: rest, key, value =>
      if k = key then (key, value) :: rest else (k, v) :: setEntry rest key value

/-! ## Conflict Reducer: the running email → latest-heartbeat table -/

/-- One entry of `emailHeartbeatMap`: the winning userId, its last heartbeat
and its full row (src/unnamed/part_001 lines 133-137). -/
structure HBEntry where
  userId : String
  lastHeartbeat : Option Int
  record : AggRow

/-- The `offer` step of the Conflict Reducer (src/unnamed/part_001 lines
132-138): `if (!emailHeartbeatMap[userEmail] || lastHeartbeat >
emailHeartbeatMap[userEmail].lastHeartbeat)` replace the entry, else leave
the table unchanged. -/
def offer (m : List (String × HBEntry)) (userEmail : String) (e : HBEntry) :
    List (String × HBEntry) :=
  match getEntry m userEmail with
  | none => setEntry m userEmail e
  | some cur => if jsGtOpt e.lastHeartbeat cur.lastHeartbeat then setEntry m userEmail e else m

/-! ## Field-set construction: updateData -/

/-- The field set pushed to Airtable for one winner (src/unnamed/part_001
lines 250-264, src/index.js lines 144-158). -/
structure UpdateFields where
  waka_last_synced_from_db : String
  waka_first_heartbeat : Option Int
  waka_last_heartbeat : Option Int
  waka_known_machine_count : Option Rat
  waka_known_machines : Option String
  waka_30_day_active_machine_count : Option Rat
  waka_30_day_active_machines : Option String
  waka_known_installation_count : Option Rat
  waka_known_installations : Option String
  waka_30_day_active_installation_count : Option Rat
  waka_30_day_active_installations : Option String
  waka_total_hours_logged : Option Rat
  waka_30_day_hours_logged : Option Rat
deriving DecidableEq

/-- `Number(x) === 0 ? null : Number(x)`: a zero aggregate is written as
null, anything else as the number itself. -/
def zeroToNull (v : Rat) : Option Rat :=
  if v = 0 then none else some v

/-- Building the update object (src/unnamed/part_001 lines 250-264).  `now`
stands for `new Date().toISOString()`.  `x || null` on a Date-or-null is the
identity (a Date object is always truthy), so the two heartbeat fields pass
through.  The four sanitizeAndSerialize calls are evaluated in the order of
the JS object literal; a thrown TypeError aborts the construction (it is
caught by the enclosing try in the script). -/
def updateData (now : String) (r : AggRow) : Except String UpdateFields :=
  match sanitizeAndSerialize r.known_machines with
  | .error e => .error e
  | .ok km =>
  match sanitizeAndSerialize r.day30_active_machines with
  | .error e => .error e
  | .ok am =>
  match sanitizeAndSerialize r.known_installations with
  | .error e => .error e
  | .ok ki =>
  match sanitizeAndSerialize r.day30_active_installations with
  | .error e => .error e
  | .ok ai => .ok
    { waka_last_synced_from_db := now
      waka_first_heartbeat := r.first_heartbeat
      waka_last_heartbeat := r.last_heartbeat
      waka_known_machine_count := zeroToNull r.known_machine_count
      waka_known_machines := km
      waka_30_day_active_machine_count := zeroToNull r.day30_active_machine_count
      waka_30_day_active_machines := am
      waka_known_installation_count := zeroToNull r.known_installation_count
      waka_known_installations := ki
      waka_30_day_active_installation_count := zeroToNull r.day30_active_installation_count
      waka_30_day_active_installations := ai
      waka_total_hours_logged := zeroToNull r.total_hours_logged
      waka_30_day_hours_logged := zeroToNull r.day30_hours_logged }

/-! ## Pending-update accumulators -/

/-- The Map-based accumulator of src/unnamed/part_001 (lines 268-290):
if `updateBatch` already has an entry for the record id, replace it only when
the new source row's `last_heartbeat` is strictly greater (JS `>`) than the
queued entry's `waka_last_heartbeat` field; otherwise keep the queued entry.
`newLast` is `emailRecord.last_heartbeat` of the row being enqueued. -/
def enqueueUpdate (batch : List (String × UpdateFields)) (rid : String)
    (newLast : Option Int) (u : UpdateFields) : List (String × UpdateFields) :=
  match getEntry batch rid with
  | some ex =>
      if jsGtOpt newLast ex.waka_last_heartbeat then setEntry batch rid u else batch
  | none => setEntry batch rid u

/-- The array-based accumulator of src/index.js (lines 162-166):
`updateBatch.push({ id, fields })`, unconditionally. -/
def pushUpdate (batch : List (String × UpdateFields)) (rid : String)
    (u : UpdateFields) : List (String × UpdateFields) :=
  batch ++ [(rid, u)]

/-! ## Batch Upserter: capacity-10 flushes (src/unnamed/part_001) -/

/-- State of the upserter: the current queue and the payloads of the bulk
write calls issued so far, in order. -/
structure BatchState where
  batch : List (String × UpdateFields)
  writes : List (List (String × UpdateFields))
deriving DecidableEq

/-- `if (updateBatch.size === 10) { await update(...); updateBatch.clear() }`
(src/unnamed/part_001 lines 292-303). -/
def flushIfFull (s : BatchState) : BatchState :=
  if s.batch.length = 10 then { batch := [], writes := s.writes ++ [s.batch] } else s

/-- One enqueue followed by the capacity check, as executed for each winner. -/
def stepOp (s : BatchState) (op : String × Option Int × UpdateFields) : BatchState :=
  flushIfFull { batch := enqueueUpdate s.batch op.1 op.2.1 op.2.2, writes := s.writes }

/-- Run a whole stream of enqueues from the empty initial state. -/
def runOps (ops : List (String × Option Int × UpdateFields)) : BatchState :=
  ops.foldl stepOp { batch := [], writes := [] }

/-- The end-of-stream flush `if (updateBatch.size > 0) { await update(...) }`
(src/unnamed/part_001 lines 165-175). -/
def flushRemaining (s : BatchState) : BatchState :=
  if 0 < s.batch.length then { batch := [], writes := s.writes ++ [s.batch] } else s

/-! ## Paginator -/

/-- The page returned by the source for `LIMIT limit OFFSET offset` over a
source of `rows` (stable creation-order). -/
def pageAt {α : Type} (rows : List α) (offset limit : Nat) : List α :=
  (rows.drop offset).take limit

/-- The pagination loop of src/unnamed/part_001 (lines 63-162) and
src/index.js (lines 49-194): fetch a page; if its length is strictly less
than `limit`, mark the stream exhausted; process every row of a non-empty
page; advance the offset by `limit` only when the page was full.  Returns
(final offset, rows processed in order, number of fetches issued).  The
recursion condition carries `0 < limit` so the definition is total; for
`limit = 0` the JS loop would not terminate, and every theorem below assumes
a positive page size. -/
def runPagesA {α : Type} (rows : List α) (limit offset : Nat)
    (processed : List α) (fetches : Nat) : Nat × List α × Nat :=
  if h : (pageAt rows offset limit).length = limit ∧ 0 < limit then
    runPagesA rows limit (offset + limit) (processed ++ pageAt rows offset limit) (fetches + 1)
  else (offset, processed ++ pageAt rows offset limit, fetches + 1)
termination_by rows.length - offset
decreasing_by
  simp only [pageAt, List.length_take, List.length_drop] at h
  omega

/-- The pagination loop of src/unnamed/part_000 (lines 21-61): stop only when
the page is empty (without processing), otherwise process the page and always
advance the offset by `limit`. -/
def runPagesB {α : Type} (rows : List α) (limit offset : Nat)
    (processed : List α) (fetches : Nat) : Nat × List α × Nat :=
  if h : (pageAt rows offset limit).length ≠ 0 ∧ 0 < limit then
    runPagesB rows limit (offset + limit) (processed ++ pageAt rows offset limit) (fetches + 1)
  else (offset, processed, fetches + 1)
termination_by rows.length - offset
decreasing_by
  simp only [pageAt, List.length_take, List.length_drop] at h
  omega

/-! ## Degraded flag and exit code -/

/-- The two kinds of fallible Airtable calls a run performs. -/
inductive CallKind where
  | lookupCall : CallKind
  | writeCall : CallKind
deriving DecidableEq

/-- Outcome of one call: `ok = false` means the awaited call threw. -/
structure CallEvent where
  kind : CallKind
  ok : Bool
deriving DecidableEq

/-- `airtableErrorOccurred` at the end of a completed run of
src/unnamed/part_001: every catch site (the whole-batch catch of
lookupAndUpdateUsers at lines 305-308 and the bulk-write catches at lines
298-301 and 170-173) sets the flag, so each failed lookup or write call sets
it and nothing clears it. -/
def degradedFlagMain (run : List CallEvent) : Bool :=
  run.foldl (fun f e => f || !e.ok) false

/-- `process.exit(airtableErrorOccurred ? 1 : 0)` (src/unnamed/part_001
lines 177-184). -/
def exitCodeMain (run : List CallEvent) : Nat :=
  if degradedFlagMain run then 1 else 0

/-- `airtableErrorOccurred` at the end of a completed run of src/index.js:
only the bulk-write catches (lines 174-177 and 202-205) set the flag; a
failed lookup is caught by the per-user catch at lines 183-185, which logs
and leaves the flag untouched. -/
def degradedFlagLegacy (run : List CallEvent) : Bool :=
  run.foldl (fun f e => f || (!e.ok && decide (e.kind = CallKind.writeCall))) false

/-- `process.exit(airtableErrorOccurred ? 1 : 0)` (src/index.js lines
208-215). -/
def exitCodeLegacy (run : List CallEvent) : Nat :=
  if degradedFlagLegacy run then 1 else 0

/-! ## Identity Resolver: filter-formula construction -/

/-- The single-quote character, written by code point to keep string
literals quote-free. -/
def sqChar : Char := Char.ofNat 39

/-- The one-character string holding a single quote. -/
def sqStr : String := String.mk [sqChar]

/-- `value.replace(/\x27/g, "\x27\x27")`: double every single quote
(src/unnamed/part_001 line 20, src/index.js lines 121 and 129). -/
def escapeQuotes (s : String) : String :=
  String.mk (s.data.flatMap (fun c => if c = sqChar then [sqChar, sqChar] else [c]))

/-- `array.join(sep)`. -/
def joinSep (sep : String) : List String → String
  | [] => ""
  | [x] => x
  | x :: xs => x ++ sep ++ joinSep sep xs

/-- buildOrFormula (src/unnamed/part_001 lines 19-23): quote and escape each
value, wrap each in a `{field} = value` condition and join them under OR. -/
def buildOrFormula (fieldName : String) (values : List String) : String :=
  let escapedValues := values.map (fun value => sqStr ++ escapeQuotes value ++ sqStr)
  let conditions := escapedValues.map (fun value => "\x7b" ++ fieldName ++ "\x7d = " ++ value)
  "OR(" ++ joinSep ", " conditions ++ ")"

/-- The single-key filter of src/index.js (lines 121 and 129):
`{field} = escaped-and-quoted value`. -/
def singleFilter (fieldName : String) (value : String) : String :=
  "\x7b" ++ fieldName ++ "\x7d = " ++ sqStr ++ escapeQuotes value ++ sqStr

/-- Number of single quotes in a string. -/
def countQuote (s : String) : Nat :=
  s.data.count sqChar

/-! ## Lemmas about the map primitives -/

theorem getEntry_setEntry_self {β : Type} (m : List (String × β)) (k : String) (v : β) :
    getEntry (setEntry m k v) k = some v := by
  induction m with
  | nil => simp [getEntry, setEntry]
  | cons hd tl ih =>
      rcases hd with ⟨k0, v0⟩
      by_cases h : k0 = k
      · subst h; simp [getEntry, setEntry]
      · simp [getEntry, setEntry, h, ih]

theorem getEntry_setEntry_ne {β : Type} (m : List (String × β)) (k key : String) (v : β)
    (h : key ≠ k) : getEntry (setEntry m k v) key = getEntry m key := by
  have hkk : ¬ k = key := fun hh => h hh.symm
  induction m with
  | nil => simp [getEntry, setEntry, hkk]
  | cons hd tl ih =>
      rcases hd with ⟨k0, v0⟩
      by_cases hk : k0 = k
      · subst hk; simp [getEntry, setEntry, hkk]
      · simp [getEntry, setEntry, hk, ih]

theorem getEntry_eq_none_iff {β : Type} (m : List (String × β)) (k : String) :
    getEntry m k = none ↔ k ∉ m.map Prod.fst := by
  induction m with
  | nil => simp [getEntry]
  | cons hd tl ih =>
      rcases hd with ⟨k0, v0⟩
      by_cases h : k0 = k
      · subst h; simp [getEntry]
      · have hkk : ¬ k = k0 := fun hh => h hh.symm
        simp [getEntry, h, ih, hkk]

theorem setEntry_map_fst_of_mem {β : Type} (m : List (String × β)) (k : String) (v : β)
    (h : k ∈ m.map Prod.fst) : (setEntry m k v).map Prod.fst = m.map Prod.fst := by
  induction m with
  | nil => simp at h
  | cons hd tl ih =>
      rcases hd with ⟨k0, v0⟩
      by_cases hk : k0 = k
      · subst hk; simp [setEntry]
      · have htl : k ∈ tl.map Prod.fst := by
          simp only [List.map_cons, List.mem_cons] at h
          rcases h with h | h
          · exact absurd h.symm hk
          · exact h
        simp [setEntry, hk, ih htl]

theorem setEntry_map_fst_of_not_mem {β : Type} (m : List (String × β)) (k : String) (v : β)
    (h : k ∉ m.map Prod.fst) : (setEntry m k v).map Prod.fst = m.map Prod.fst ++ [k] := by
  induction m with
  | nil => simp [setEntry]
  | cons hd tl ih =>
      rcases hd with ⟨k0, v0⟩
      simp only [List.map_cons, List.mem_cons] at h
      push_neg at h
      have hk : ¬ k0 = k := fun hh => h.1 hh.symm
      simp [setEntry, hk, ih h.2]

theorem setEntry_keys_nodup {β : Type} (m : List (String × β)) (k : String) (v : β)
    (h : (m.map Prod.fst).Nodup) : ((setEntry m k v).map Prod.fst).Nodup := by
  by_cases hk : k ∈ m.map Prod.fst
  · rw [setEntry_map_fst_of_mem m k v hk]; exact h
  · rw [setEntry_map_fst_of_not_mem m k v hk]
    simpa using List.Nodup.append h (List.nodup_singleton k) (by simpa using hk)

theorem setEntry_length_le {β : Type} (m : List (String × β)) (k : String) (v : β) :
    (setEntry m k v).length ≤ m.length + 1 := by
  induction m with
  | nil => simp [setEntry]
  | cons hd tl ih =>
      by_cases hk : hd.1 = k
      · simp [setEntry, hk]
      · simp only [setEntry, hk, if_false, List.length_cons]
        omega

theorem offer_of_none (m : List (String × HBEntry)) (userEmail : String) (e : HBEntry)
    (h : getEntry m userEmail = none) : offer m userEmail e = setEntry m userEmail e := by
  simp [offer, h]

theorem offer_of_gt (m : List (String × HBEntry)) (userEmail : String) (e cur : HBEntry)
    (h : getEntry m userEmail = some cur)
    (hgt : jsGtOpt e.lastHeartbeat cur.lastHeartbeat = true) :
    offer m userEmail e = setEntry m userEmail e := by
  simp [offer, h, hgt]

theorem offer_of_not_gt (m : List (String × HBEntry)) (userEmail : String) (e cur : HBEntry)
    (h : getEntry m userEmail = some cur)
    (hgt : jsGtOpt e.lastHeartbeat cur.lastHeartbeat = false) :
    offer m userEmail e = m := by
  simp [offer, h, hgt]

/-! ## C1: the Conflict Reducer keeps the strictly-latest row per email -/

/-- C1: for two aggregate rows with the same email and different
`lastActivity` timestamps, after offering both to the Conflict Reducer
(starting from a table with no entry for that email) the table holds exactly
the entry with the strictly greater timestamp, in either arrival order; and
offering a row whose timestamp is not strictly greater than the stored
entry's leaves the table unchanged. -/
theorem conflict_reducer_latest_wins
    (m : List (String × HBEntry)) (userEmail : String) (e1 e2 : HBEntry)
    (t1 t2 : Int) (h0 : getEntry m userEmail = none)
    (h1 : e1.lastHeartbeat = some t1) (h2 : e2.lastHeartbeat = some t2)
    (hne : t1 ≠ t2) :
    getEntry (offer (offer m userEmail e1) userEmail e2) userEmail
        = some (if t2 < t1 then e1 else e2) ∧
    getEntry (offer (offer m userEmail e2) userEmail e1) userEmail
        = some (if t2 < t1 then e1 else e2) ∧
    (∀ (m2 : List (String × HBEntry)) (e cur : HBEntry),
        getEntry m2 userEmail = some cur →
        jsGtOpt e.lastHeartbeat cur.lastHeartbeat = false →
        offer m2 userEmail e = m2) := by
  have hs1 : getEntry (setEntry m userEmail e1) userEmail = some e1 :=
    getEntry_setEntry_self m userEmail e1
  have hs2 : getEntry (setEntry m userEmail e2) userEmail = some e2 :=
    getEntry_setEntry_self m userEmail e2
  refine ⟨?_, ?_, ?_⟩
  · rw [offer_of_none m userEmail e1 h0]
    by_cases hlt : t1 < t2
    · have hgt : jsGtOpt e2.lastHeartbeat e1.lastHeartbeat = true := by
        simp [jsGtOpt, h1, h2, hlt]
      rw [offer_of_gt _ _ _ _ hs1 hgt, getEntry_setEntry_self, if_neg (by omega)]
    · have hgt : jsGtOpt e2.lastHeartbeat e1.lastHeartbeat = false := by
        simp [jsGtOpt, h1, h2, hlt]
      rw [offer_of_not_gt _ _ _ _ hs1 hgt, getEntry_setEntry_self, if_pos (by omega)]
  · rw [offer_of_none m userEmail e2 h0]
    by_cases hlt : t2 < t1
    · have hgt : jsGtOpt e1.lastHeartbeat e2.lastHeartbeat = true := by
        simp [jsGtOpt, h1, h2, hlt]
      rw [offer_of_gt _ _ _ _ hs2 hgt, getEntry_setEntry_self, if_pos hlt]
    · have hgt : jsGtOpt e1.lastHeartbeat e2.lastHeartbeat = false := by
        simp [jsGtOpt, h1, h2, hlt]
      rw [offer_of_not_gt _ _ _ _ hs2 hgt, getEntry_setEntry_self, if_neg hlt]
  · intro m2 e cur hcur hfalse
    exact offer_of_not_gt m2 userEmail e cur hcur hfalse

/-- A concrete aggregate row used to instantiate the theorems: entityId A,
whose machine-list fields are SQL NULL and whose 30-day counters are zero. -/
def sampleRow : AggRow :=
  { created_at := 0
    id := "A"
    name := "A"
    email := "e@x.com"
    first_heartbeat := some 5
    last_heartbeat := some 10
    known_machine_count := 1
    known_machines := JsVal.vnull
    day30_active_machine_count := 0
    day30_active_machines := JsVal.vnull
    known_installation_count := 1
    known_installations := JsVal.vnull
    day30_active_installation_count := 0
    day30_active_installations := JsVal.vnull
    total_hours_logged := 2
    day30_hours_logged := 0 }

/-- Witness for C1: rows A (lastActivity 10) and B (lastActivity 11) on the
same email, offered in both orders to an empty table. -/
theorem conflict_reducer_latest_wins_witness :
    getEntry ([] : List (String × HBEntry)) "e@x.com" = none ∧
    (HBEntry.mk "A" (some 10) sampleRow).lastHeartbeat = some 10 ∧
    (HBEntry.mk "B" (some 11) sampleRow).lastHeartbeat = some 11 ∧
    (10 : Int) ≠ 11 ∧
    (getEntry (offer (offer [] "e@x.com" (HBEntry.mk "A" (some 10) sampleRow))
        "e@x.com" (HBEntry.mk "B" (some 11) sampleRow)) "e@x.com"
        = some (if (11 : Int) < 10 then HBEntry.mk "A" (some 10) sampleRow
                else HBEntry.mk "B" (some 11) sampleRow) ∧
      getEntry (offer (offer [] "e@x.com" (HBEntry.mk "B" (some 11) sampleRow))
        "e@x.com" (HBEntry.mk "A" (some 10) sampleRow)) "e@x.com"
        = some (if (11 : Int) < 10 then HBEntry.mk "A" (some 10) sampleRow
                else HBEntry.mk "B" (some 11) sampleRow) ∧
      (∀ (m2 : List (String × HBEntry)) (e cur : HBEntry),
          getEntry m2 "e@x.com" = some cur →
          jsGtOpt e.lastHeartbeat cur.lastHeartbeat = false →
          offer m2 "e@x.com" e = m2)) :=
  ⟨rfl, rfl, rfl, by decide,
    conflict_reducer_latest_wins [] "e@x.com"
      (HBEntry.mk "A" (some 10) sampleRow) (HBEntry.mk "B" (some 11) sampleRow)
      10 11 rfl rfl rfl (by decide)⟩

/-! ## C3 and C10: sanitization lemmas -/

deriving instance DecidableEq for Except

/-- An array entry the filter is specified to drop: null/undefined, or a
string that is empty or whitespace-only, or empty after deleting the pipe
separator. -/
def discardable (v : JsVal) : Prop :=
  v = JsVal.vnull ∨ v = JsVal.vundef ∨
  ∃ s, v = JsVal.vstr s ∧ (jsTrim s = "" ∨ jsTrim (stripPipes s) = "")

theorem itemKeep_ok_some (v : JsVal) (s : String) (h : itemKeep v = Except.ok (some s)) :
    v = JsVal.vstr s ∧ jsTrim s ≠ "" ∧ jsTrim (stripPipes s) ≠ "" := by
  cases v with
  | vnull => simp [itemKeep, truthy] at h
  | vundef => simp [itemKeep, truthy] at h
  | vbool b => cases b <;> simp [itemKeep, truthy] at h
  | vnum q => by_cases hq : q = 0 <;> simp [itemKeep, truthy, hq] at h
  | varr xs => simp [itemKeep, truthy] at h
  | vstr s0 =>
      by_cases hs : s0 = ""
      · simp [itemKeep, truthy, hs] at h
      · by_cases hc : jsTrim s0 ≠ "" ∧ jsTrim (stripPipes s0) ≠ ""
        · simp only [itemKeep, truthy, hs, decide_not, if_pos, hc, if_true] at h
          simp at h
          obtain ⟨-, h⟩ := h
          subst h
          exact ⟨rfl, hc.1, hc.2⟩
        · simp [itemKeep, truthy, hs, hc] at h

theorem itemKeep_vstr_of_clean (s : String) (h1 : jsTrim s ≠ "")
    (h2 : jsTrim (stripPipes s) ≠ "") :
    itemKeep (JsVal.vstr s) = Except.ok (some s) := by
  have hs : s ≠ "" := by
    intro he
    exact h1 (by rw [he]; rfl)
  simp [itemKeep, truthy, hs, h1, h2]

theorem itemKeep_of_discardable (v : JsVal) (h : discardable v) :
    itemKeep v = Except.ok none := by
  rcases h with h | h | ⟨s, rfl, hcase⟩
  · subst h; rfl
  · subst h; rfl
  · by_cases hs : s = ""
    · simp [itemKeep, truthy, hs]
    · rcases hcase with hc | hc <;> simp [itemKeep, truthy, hs, hc]

theorem runFilter_idem (xs : List JsVal) (l : List String)
    (h : runFilter xs = Except.ok l) :
    runFilter (l.map JsVal.vstr) = Except.ok l := by
  induction xs generalizing l with
  | nil =>
      simp [runFilter] at h
      subst h
      rfl
  | cons v vs ih =>
      cases hk : itemKeep v with
      | error e => simp [runFilter, hk] at h
      | ok hd =>
          cases hr : runFilter vs with
          | error e => simp [runFilter, hk, hr] at h
          | ok tl =>
              cases hd with
              | some s =>
                  simp [runFilter, hk, hr] at h
                  subst h
                  obtain ⟨-, hc1, hc2⟩ := itemKeep_ok_some v s hk
                  simp [runFilter, itemKeep_vstr_of_clean s hc1 hc2, ih tl hr]
              | none =>
                  simp [runFilter, hk, hr] at h
                  subst h
                  exact ih _ hr

theorem runFilter_all_discardable (ys : List JsVal)
    (h : ∀ v ∈ ys, discardable v) : runFilter ys = Except.ok [] := by
  induction ys with
  | nil => rfl
  | cons v vs ih =>
      have hv : itemKeep v = Except.ok none :=
        itemKeep_of_discardable v (h v (List.mem_cons_self v vs))
      have hvs : runFilter vs = Except.ok [] :=
        ih (fun w hw => h w (List.mem_cons_of_mem v hw))
      simp [runFilter, hv, hvs]

/-- C3 (amended): the filtering step of sanitization is idempotent — the
surviving list of a sanitization pass survives a second pass unchanged, so
sanitizing the surviving list again produces the same serialized result as
the original pass (the serialized string itself is not an array, see C10);
and sanitizing an array of only null/empty/whitespace-only/separator-only
entries produces null. -/
theorem sanitize_filter_idempotent (xs : List JsVal) (l : List String)
    (h : runFilter xs = Except.ok l) (hne : l ≠ []) :
    runFilter (l.map JsVal.vstr) = Except.ok l ∧
    sanitizeAndSerialize (JsVal.varr (l.map JsVal.vstr))
      = Except.ok (some (serializeIndent2 l)) ∧
    sanitizeAndSerialize (JsVal.varr xs) = Except.ok (some (serializeIndent2 l)) ∧
    (∀ ys : List JsVal, (∀ v ∈ ys, discardable v) →
      sanitizeAndSerialize (JsVal.varr ys) = Except.ok none) := by
  have hlen : 0 < l.length := List.length_pos.mpr hne
  refine ⟨runFilter_idem xs l h, ?_, ?_, ?_⟩
  · simp [sanitizeAndSerialize, runFilter_idem xs l h, hlen]
  · simp [sanitizeAndSerialize, h, hlen]
  · intro ys hys
    simp [sanitizeAndSerialize, runFilter_all_discardable ys hys]

/-- Counterexample to C3 as stated: the output of sanitizing the non-empty
list of strings with single element a is the serialized string, and
sanitizing that output returns null, not the output itself. -/
theorem sanitize_not_idempotent_on_output :
    sanitizeAndSerialize (JsVal.varr [JsVal.vstr "a"])
      = Except.ok (some "[\n  \"a\"\n]") ∧
    sanitizeAndSerialize (JsVal.vstr "[\n  \"a\"\n]") = Except.ok none ∧
    (Except.ok (none : Option String) : Except String (Option String))
      ≠ Except.ok (some "[\n  \"a\"\n]") := by
  refine ⟨by decide, rfl, by decide⟩

/-- Witness for the amended C3, at the single-element list with entry a. -/
theorem sanitize_filter_idempotent_witness :
    runFilter [JsVal.vstr "a"] = Except.ok ["a"] ∧ (["a"] : List String) ≠ [] ∧
    (runFilter (["a"].map JsVal.vstr) = Except.ok ["a"] ∧
     sanitizeAndSerialize (JsVal.varr (["a"].map JsVal.vstr))
       = Except.ok (some (serializeIndent2 ["a"])) ∧
     sanitizeAndSerialize (JsVal.varr [JsVal.vstr "a"])
       = Except.ok (some (serializeIndent2 ["a"])) ∧
     (∀ ys : List JsVal, (∀ v ∈ ys, discardable v) →
       sanitizeAndSerialize (JsVal.varr ys) = Except.ok none)) :=
  ⟨by decide, by decide,
    sanitize_filter_idempotent [JsVal.vstr "a"] ["a"] (by decide) (by decide)⟩

/-- C10 (amended): sanitization returns null, without raising, on every
non-array input, and only an array input can produce a non-null result. -/
theorem sanitize_non_array_null (v : JsVal) :
    ((∀ xs : List JsVal, v ≠ JsVal.varr xs) → sanitizeAndSerialize v = Except.ok none) ∧
    (∀ r : String, sanitizeAndSerialize v = Except.ok (some r) →
      ∃ xs : List JsVal, v = JsVal.varr xs) := by
  cases v with
  | varr xs =>
      exact ⟨fun h => absurd rfl (h xs), fun r _ => ⟨xs, rfl⟩⟩
  | vnull => exact ⟨fun _ => rfl, fun r h => by simp [sanitizeAndSerialize] at h⟩
  | vundef => exact ⟨fun _ => rfl, fun r h => by simp [sanitizeAndSerialize] at h⟩
  | vbool b => exact ⟨fun _ => rfl, fun r h => by simp [sanitizeAndSerialize] at h⟩
  | vnum q => exact ⟨fun _ => rfl, fun r h => by simp [sanitizeAndSerialize] at h⟩
  | vstr s => exact ⟨fun _ => rfl, fun r h => by simp [sanitizeAndSerialize] at h⟩

/-- Counterexample to C10 as stated: sanitization is not total over
arbitrary inputs — an array holding a truthy non-string element (here a
nested empty array) makes the filter call `item.trim()` on a non-string,
which throws a TypeError instead of returning a value. -/
theorem sanitize_throws_on_nested_array :
    sanitizeAndSerialize (JsVal.varr [JsVal.varr []])
      = Except.error "TypeError: item.trim is not a function" ∧
    (∀ o : Option String,
      sanitizeAndSerialize (JsVal.varr [JsVal.varr []]) ≠ Except.ok o) := by
  have h1 : sanitizeAndSerialize (JsVal.varr [JsVal.varr []])
      = Except.error "TypeError: item.trim is not a function" := by decide
  exact ⟨h1, fun o h => by rw [h1] at h; exact Except.noConfusion h⟩

/-- Witness for the amended C10, at the serialized output string itself. -/
theorem sanitize_non_array_null_witness :
    sanitizeAndSerialize (JsVal.vstr "[\n  \"a\"\n]") = Except.ok none :=
  (sanitize_non_array_null (JsVal.vstr "[\n  \"a\"\n]")).1
    (fun _xs h => JsVal.noConfusion h)

/-! ## C8: zero-valued numeric aggregates are written as null -/

theorem zeroToNull_spec (v : Rat) :
    (zeroToNull v = none ↔ v = 0) ∧ (v ≠ 0 → zeroToNull v = some v) ∧
    zeroToNull v ≠ some 0 := by
  by_cases hv : v = 0 <;> simp [zeroToNull, hv]

/-- C8: in every successfully built update, each of the six numeric
aggregate fields is null exactly when the row's value is 0, carries the
row's value itself when it is nonzero, and is never the literal 0. -/
theorem update_zero_becomes_null (now : String) (r : AggRow) (u : UpdateFields)
    (h : updateData now r = Except.ok u) :
    ((u.waka_known_machine_count = none ↔ r.known_machine_count = 0) ∧
     (r.known_machine_count ≠ 0 →
       u.waka_known_machine_count = some r.known_machine_count) ∧
     u.waka_known_machine_count ≠ some 0) ∧
    ((u.waka_30_day_active_machine_count = none ↔ r.day30_active_machine_count = 0) ∧
     (r.day30_active_machine_count ≠ 0 →
       u.waka_30_day_active_machine_count = some r.day30_active_machine_count) ∧
     u.waka_30_day_active_machine_count ≠ some 0) ∧
    ((u.waka_known_installation_count = none ↔ r.known_installation_count = 0) ∧
     (r.known_installation_count ≠ 0 →
       u.waka_known_installation_count = some r.known_installation_count) ∧
     u.waka_known_installation_count ≠ some 0) ∧
    ((u.waka_30_day_active_installation_count = none ↔
        r.day30_active_installation_count = 0) ∧
     (r.day30_active_installation_count ≠ 0 →
       u.waka_30_day_active_installation_count = some r.day30_active_installation_count) ∧
     u.waka_30_day_active_installation_count ≠ some 0) ∧
    ((u.waka_total_hours_logged = none ↔ r.total_hours_logged = 0) ∧
     (r.total_hours_logged ≠ 0 →
       u.waka_total_hours_logged = some r.total_hours_logged) ∧
     u.waka_total_hours_logged ≠ some 0) ∧
    ((u.waka_30_day_hours_logged = none ↔ r.day30_hours_logged = 0) ∧
     (r.day30_hours_logged ≠ 0 →
       u.waka_30_day_hours_logged = some r.day30_hours_logged) ∧
     u.waka_30_day_hours_logged ≠ some 0) := by
  cases h1 : sanitizeAndSerialize r.known_machines with
  | error e => simp only [updateData, h1] at h; exact Except.noConfusion h
  | ok km =>
    cases h2 : sanitizeAndSerialize r.day30_active_machines with
    | error e => simp only [updateData, h1, h2] at h; exact Except.noConfusion h
    | ok am =>
      cases h3 : sanitizeAndSerialize r.known_installations with
      | error e => simp only [updateData, h1, h2, h3] at h; exact Except.noConfusion h
      | ok ki =>
        cases h4 : sanitizeAndSerialize r.day30_active_installations with
        | error e => simp only [updateData, h1, h2, h3, h4] at h; exact Except.noConfusion h
        | ok ai =>
          simp only [updateData, h1, h2, h3, h4, Except.ok.injEq] at h
          subst h
          exact ⟨zeroToNull_spec r.known_machine_count,
                 zeroToNull_spec r.day30_active_machine_count,
                 zeroToNull_spec r.known_installation_count,
                 zeroToNull_spec r.day30_active_installation_count,
                 zeroToNull_spec r.total_hours_logged,
                 zeroToNull_spec r.day30_hours_logged⟩

/-- The update record produced for `sampleRow` (timestamp string t). -/
def sampleUpdate : UpdateFields :=
  { waka_last_synced_from_db := "t"
    waka_first_heartbeat := some 5
    waka_last_heartbeat := some 10
    waka_known_machine_count := some 1
    waka_known_machines := none
    waka_30_day_active_machine_count := none
    waka_30_day_active_machines := none
    waka_known_installation_count := some 1
    waka_known_installations := none
    waka_30_day_active_installation_count := none
    waka_30_day_active_installations := none
    waka_total_hours_logged := some 2
    waka_30_day_hours_logged := none }

/-- Witness for C8 at `sampleRow`, whose 30-day counters are 0 and whose
all-time counters are nonzero. -/
theorem update_zero_becomes_null_witness :
    ((sampleUpdate.waka_known_machine_count = none ↔ sampleRow.known_machine_count = 0) ∧
     (sampleRow.known_machine_count ≠ 0 →
       sampleUpdate.waka_known_machine_count = some sampleRow.known_machine_count) ∧
     sampleUpdate.waka_known_machine_count ≠ some 0) ∧
    ((sampleUpdate.waka_30_day_active_machine_count = none ↔
        sampleRow.day30_active_machine_count = 0) ∧
     (sampleRow.day30_active_machine_count ≠ 0 →
       sampleUpdate.waka_30_day_active_machine_count
         = some sampleRow.day30_active_machine_count) ∧
     sampleUpdate.waka_30_day_active_machine_count ≠ some 0) ∧
    ((sampleUpdate.waka_known_installation_count = none ↔
        sampleRow.known_installation_count = 0) ∧
     (sampleRow.known_installation_count ≠ 0 →
       sampleUpdate.waka_known_installation_count
         = some sampleRow.known_installation_count) ∧
     sampleUpdate.waka_known_installation_count ≠ some 0) ∧
    ((sampleUpdate.waka_30_day_active_installation_count = none ↔
        sampleRow.day30_active_installation_count = 0) ∧
     (sampleRow.day30_active_installation_count ≠ 0 →
       sampleUpdate.waka_30_day_active_installation_count
         = some sampleRow.day30_active_installation_count) ∧
     sampleUpdate.waka_30_day_active_installation_count ≠ some 0) ∧
    ((sampleUpdate.waka_total_hours_logged = none ↔ sampleRow.total_hours_logged = 0) ∧
     (sampleRow.total_hours_logged ≠ 0 →
       sampleUpdate.waka_total_hours_logged = some sampleRow.total_hours_logged) ∧
     sampleUpdate.waka_total_hours_logged ≠ some 0) ∧
    ((sampleUpdate.waka_30_day_hours_logged = none ↔ sampleRow.day30_hours_logged = 0) ∧
     (sampleRow.day30_hours_logged ≠ 0 →
       sampleUpdate.waka_30_day_hours_logged = some sampleRow.day30_hours_logged) ∧
     sampleUpdate.waka_30_day_hours_logged ≠ some 0) :=
  update_zero_becomes_null "t" sampleRow sampleUpdate (by decide)

/-! ## C9: quote escaping in lookup filter expressions -/

theorem count_esc (cs : List Char) :
    (cs.flatMap (fun c => if c = sqChar then [sqChar, sqChar] else [c])).count sqChar
      = 2 * cs.count sqChar := by
  induction cs with
  | nil => rfl
  | cons c cs ih =>
      rw [List.flatMap_cons, List.count_append, ih]
      by_cases hc : c = sqChar
      · subst hc
        simp [List.count_cons]
        omega
      · simp [List.count_cons, hc]

theorem filter_esc (cs : List Char) :
    (cs.flatMap (fun c => if c = sqChar then [sqChar, sqChar] else [c])).filter
        (fun c => decide (c ≠ sqChar))
      = cs.filter (fun c => decide (c ≠ sqChar)) := by
  induction cs with
  | nil => rfl
  | cons c cs ih =>
      rw [List.flatMap_cons, List.filter_append, ih]
      by_cases hc : c = sqChar
      · subst hc
        simp [List.filter_cons]
      · simp [List.filter_cons, hc]

theorem countQuote_append (s t : String) :
    countQuote (s ++ t) = countQuote s + countQuote t := by
  cases s with
  | mk a =>
      cases t with
      | mk b => simp [countQuote, List.count_append]

theorem countQuote_joinComma (l : List String) :
    countQuote (joinSep ", " l) = (l.map countQuote).sum := by
  induction l with
  | nil => rfl
  | cons x xs ih =>
      cases xs with
      | nil => simp [joinSep]
      | cons y ys =>
          have hstep : joinSep ", " (x :: y :: ys) = x ++ ", " ++ joinSep ", " (y :: ys) := rfl
          rw [hstep, countQuote_append, countQuote_append, ih]
          have hsep : countQuote ", " = 0 := by decide
          simp [hsep]

theorem countQuote_escapeQuotes (v : String) :
    countQuote (escapeQuotes v) = 2 * countQuote v := by
  simp only [countQuote, escapeQuotes]
  exact count_esc v.data

/-- C9: every single quote of a key value inserted into a filter expression
appears doubled, and the non-quote characters are inserted unchanged and in
order: doubling and preservation for the escape transform itself, and the
exact quote count of the whole OR formula of src/unnamed/part_001 and of the
single-key filter of src/index.js (each inserted value contributes its
doubled quotes plus its two delimiters; a quote-free field name contributes
none). -/
theorem filter_formula_escaping (v f : String) (vs : List String)
    (hf : countQuote f = 0) :
    countQuote (escapeQuotes v) = 2 * countQuote v ∧
    (escapeQuotes v).data.filter (fun c => decide (c ≠ sqChar))
      = v.data.filter (fun c => decide (c ≠ sqChar)) ∧
    countQuote (buildOrFormula f vs) = (vs.map (fun w => 2 * countQuote w + 2)).sum ∧
    countQuote (singleFilter f v) = 2 * countQuote v + 2 := by
  have hsq : countQuote sqStr = 1 := by decide
  have hopen : countQuote "\x7b" = 0 := by decide
  have hclose : countQuote "\x7d = " = 0 := by decide
  have hor : countQuote "OR(" = 0 := by decide
  have hrp : countQuote ")" = 0 := by decide
  have hcond : ∀ w : String,
      countQuote ("\x7b" ++ f ++ "\x7d = " ++ (sqStr ++ escapeQuotes w ++ sqStr))
        = 2 * countQuote w + 2 := by
    intro w
    rw [countQuote_append, countQuote_append, countQuote_append, countQuote_append,
        countQuote_append, hopen, hclose, hf, hsq, countQuote_escapeQuotes]
    omega
  refine ⟨countQuote_escapeQuotes v, filter_esc v.data, ?_, ?_⟩
  · simp only [buildOrFormula, List.map_map]
    rw [countQuote_append, countQuote_append, hor, hrp, countQuote_joinComma,
        List.map_map]
    have hmap : ∀ w ∈ vs,
        (countQuote ∘ (fun value => "\x7b" ++ f ++ "\x7d = " ++ value) ∘
          (fun value => sqStr ++ escapeQuotes value ++ sqStr)) w
          = (fun w => 2 * countQuote w + 2) w := by
      intro w _
      exact hcond w
    rw [List.map_congr_left hmap]
    omega
  · simp only [singleFilter]
    rw [countQuote_append, countQuote_append, countQuote_append, countQuote_append,
        countQuote_append, hopen, hclose, hf, hsq, countQuote_escapeQuotes]
    omega

/-- Witness for C9: the one-character value consisting of a single quote,
inserted under field name email. -/
theorem filter_formula_escaping_witness :
    countQuote "email" = 0 ∧
    (countQuote (escapeQuotes (String.mk [sqChar])) = 2 * countQuote (String.mk [sqChar]) ∧
     (escapeQuotes (String.mk [sqChar])).data.filter (fun c => decide (c ≠ sqChar))
       = (String.mk [sqChar]).data.filter (fun c => decide (c ≠ sqChar)) ∧
     countQuote (buildOrFormula "email" [String.mk [sqChar]])
       = ([String.mk [sqChar]].map (fun w => 2 * countQuote w + 2)).sum ∧
     countQuote (singleFilter "email" (String.mk [sqChar]))
       = 2 * countQuote (String.mk [sqChar]) + 2) :=
  ⟨by decide, filter_formula_escaping (String.mk [sqChar]) "email"
    [String.mk [sqChar]] (by decide)⟩

/-! ## C5: the pending-update accumulator -/

theorem enqueue_of_none (batch : List (String × UpdateFields)) (rid : String)
    (newLast : Option Int) (u : UpdateFields) (h : getEntry batch rid = none) :
    enqueueUpdate batch rid newLast u = setEntry batch rid u := by
  simp [enqueueUpdate, h]

theorem enqueue_of_gt (batch : List (String × UpdateFields)) (rid : String)
    (newLast : Option Int) (u : UpdateFields) (ex : UpdateFields)
    (h : getEntry batch rid = some ex)
    (hgt : jsGtOpt newLast ex.waka_last_heartbeat = true) :
    enqueueUpdate batch rid newLast u = setEntry batch rid u := by
  simp [enqueueUpdate, h, hgt]

theorem enqueue_of_not_gt (batch : List (String × UpdateFields)) (rid : String)
    (newLast : Option Int) (u : UpdateFields) (ex : UpdateFields)
    (h : getEntry batch rid = some ex)
    (hgt : jsGtOpt newLast ex.waka_last_heartbeat = false) :
    enqueueUpdate batch rid newLast u = batch := by
  simp [enqueueUpdate, h, hgt]

/-- C5 (amended, for the Map-based accumulator of src/unnamed/part_001):
enqueue keeps the accumulator keyed by target record id with no duplicate
keys; an existing queued entry is replaced exactly when the new row's source
lastActivity is strictly newer, is kept untouched otherwise, and a fresh
target id is inserted. -/
theorem pending_accumulator_keyed (batch : List (String × UpdateFields))
    (rid : String) (newLast : Option Int) (u : UpdateFields)
    (hnd : (batch.map Prod.fst).Nodup) :
    ((enqueueUpdate batch rid newLast u).map Prod.fst).Nodup ∧
    (∀ ex : UpdateFields, getEntry batch rid = some ex →
      (jsGtOpt newLast ex.waka_last_heartbeat = true →
        getEntry (enqueueUpdate batch rid newLast u) rid = some u) ∧
      (jsGtOpt newLast ex.waka_last_heartbeat = false →
        enqueueUpdate batch rid newLast u = batch)) ∧
    (getEntry batch rid = none →
      getEntry (enqueueUpdate batch rid newLast u) rid = some u) := by
  refine ⟨?_, ?_, ?_⟩
  · cases hg : getEntry batch rid with
    | none =>
        rw [enqueue_of_none batch rid newLast u hg]
        exact setEntry_keys_nodup batch rid u hnd
    | some ex =>
        cases hc : jsGtOpt newLast ex.waka_last_heartbeat with
        | true =>
            rw [enqueue_of_gt batch rid newLast u ex hg hc]
            exact setEntry_keys_nodup batch rid u hnd
        | false =>
            rw [enqueue_of_not_gt batch rid newLast u ex hg hc]
            exact hnd
  · intro ex hg
    refine ⟨?_, ?_⟩
    · intro hgt
      rw [enqueue_of_gt batch rid newLast u ex hg hgt]
      exact getEntry_setEntry_self batch rid u
    · intro hng
      exact enqueue_of_not_gt batch rid newLast u ex hg hng
  · intro hg
    rw [enqueue_of_none batch rid newLast u hg]
    exact getEntry_setEntry_self batch rid u

/-- Witness for the amended C5: enqueue into the empty accumulator. -/
theorem pending_accumulator_keyed_witness :
    (([] : List (String × UpdateFields)).map Prod.fst).Nodup ∧
    (((enqueueUpdate [] "r1" (some 10) sampleUpdate).map Prod.fst).Nodup ∧
     (∀ ex : UpdateFields, getEntry ([] : List (String × UpdateFields)) "r1" = some ex →
       (jsGtOpt (some 10) ex.waka_last_heartbeat = true →
         getEntry (enqueueUpdate [] "r1" (some 10) sampleUpdate) "r1" = some sampleUpdate) ∧
       (jsGtOpt (some 10) ex.waka_last_heartbeat = false →
         enqueueUpdate [] "r1" (some 10) sampleUpdate = [])) ∧
     (getEntry ([] : List (String × UpdateFields)) "r1" = none →
       getEntry (enqueueUpdate [] "r1" (some 10) sampleUpdate) "r1" = some sampleUpdate)) :=
  ⟨List.nodup_nil, pending_accumulator_keyed [] "r1" (some 10) sampleUpdate List.nodup_nil⟩

/-- Counterexample to C5 as stated: the array-based accumulator of
src/index.js appends unconditionally, so after two enqueues for the same
target record id it holds two entries for that id. -/
theorem pending_accumulator_push_duplicates :
    (pushUpdate (pushUpdate [] "r1" sampleUpdate) "r1" sampleUpdate).map Prod.fst
      = ["r1", "r1"] ∧
    ¬ ((pushUpdate (pushUpdate [] "r1" sampleUpdate) "r1" sampleUpdate).map
        Prod.fst).Nodup ∧
    ((pushUpdate (pushUpdate [] "r1" sampleUpdate) "r1" sampleUpdate).map
        Prod.fst).count "r1" = 2 :=
  ⟨rfl, by decide, by decide⟩

/-! ## C7: batch capacity law -/

theorem enqueueUpdate_length_le (batch : List (String × UpdateFields)) (rid : String)
    (newLast : Option Int) (u : UpdateFields) :
    (enqueueUpdate batch rid newLast u).length ≤ batch.length + 1 := by
  cases hg : getEntry batch rid with
  | none =>
      rw [enqueue_of_none batch rid newLast u hg]
      exact setEntry_length_le batch rid u
  | some ex =>
      cases hc : jsGtOpt newLast ex.waka_last_heartbeat with
      | true =>
          rw [enqueue_of_gt batch rid newLast u ex hg hc]
          exact setEntry_length_le batch rid u
      | false =>
          rw [enqueue_of_not_gt batch rid newLast u ex hg hc]
          omega

theorem runOps_invariant (ops : List (String × Option Int × UpdateFields)) :
    (runOps ops).batch.length ≤ 9 ∧ ∀ w ∈ (runOps ops).writes, w.length = 10 := by
  suffices h : ∀ s : BatchState, s.batch.length ≤ 9 → (∀ w ∈ s.writes, w.length = 10) →
      (ops.foldl stepOp s).batch.length ≤ 9 ∧
      ∀ w ∈ (ops.foldl stepOp s).writes, w.length = 10 by
    exact h ⟨[], []⟩ (by simp) (by simp)
  induction ops with
  | nil => intro s h1 h2; exact ⟨h1, h2⟩
  | cons op ops ih =>
      intro s h1 h2
      rw [List.foldl_cons]
      have hlen := enqueueUpdate_length_le s.batch op.1 op.2.1 op.2.2
      apply ih
      · show (flushIfFull _).batch.length ≤ 9
        unfold flushIfFull
        by_cases hfull : (enqueueUpdate s.batch op.1 op.2.1 op.2.2).length = 10
        · simp [hfull]
        · simp only [hfull, if_false]
          omega
      · show ∀ w ∈ (flushIfFull _).writes, w.length = 10
        unfold flushIfFull
        by_cases hfull : (enqueueUpdate s.batch op.1 op.2.1 op.2.2).length = 10
        · simp only [hfull, if_true, List.mem_append, List.mem_singleton]
          intro w hw
          rcases hw with hw | hw
          · exact h2 w hw
          · rw [hw]; exact hfull
        · simp only [hfull, if_false]
          exact h2

/-- C7: no bulk write payload ever exceeds the capacity of 10: the queue
holds at most 9 entries between operations, every in-stream flush (triggered
exactly when the queue reaches 10) writes exactly 10 entries, and the
end-of-stream flush writes exactly the currently queued entries, and only
when some entry is queued. -/
theorem batch_capacity_law (ops : List (String × Option Int × UpdateFields)) :
    (runOps ops).batch.length ≤ 9 ∧
    (∀ w ∈ (runOps ops).writes, w.length = 10) ∧
    (∀ w ∈ (flushRemaining (runOps ops)).writes, w.length ≤ 10) ∧
    ((runOps ops).batch = [] → flushRemaining (runOps ops) = runOps ops) ∧
    ((runOps ops).batch ≠ [] →
      (flushRemaining (runOps ops)).writes
        = (runOps ops).writes ++ [(runOps ops).batch] ∧
      (flushRemaining (runOps ops)).batch = []) := by
  obtain ⟨hlen, hw⟩ := runOps_invariant ops
  refine ⟨hlen, hw, ?_, ?_, ?_⟩
  · intro w hwmem
    unfold flushRemaining at hwmem
    by_cases hb : 0 < (runOps ops).batch.length
    · simp only [hb, if_true, List.mem_append, List.mem_singleton] at hwmem
      rcases hwmem with hwmem | hwmem
      · exact le_of_eq (hw w hwmem)
      · rw [hwmem]; omega
    · simp only [hb, if_false] at hwmem
      exact le_of_eq (hw w hwmem)
  · intro hb
    have : ¬ 0 < (runOps ops).batch.length := by simp [hb]
    simp [flushRemaining, this]
  · intro hb
    have : 0 < (runOps ops).batch.length := List.length_pos.mpr hb
    simp [flushRemaining, this]

/-- Witness for C7 at a one-element stream of enqueues. -/
theorem batch_capacity_law_witness :
    (runOps [("r1", some 10, sampleUpdate)]).batch.length ≤ 9 ∧
    (∀ w ∈ (runOps [("r1", some 10, sampleUpdate)]).writes, w.length = 10) ∧
    (∀ w ∈ (flushRemaining (runOps [("r1", some 10, sampleUpdate)])).writes,
      w.length ≤ 10) ∧
    ((runOps [("r1", some 10, sampleUpdate)]).batch = [] →
      flushRemaining (runOps [("r1", some 10, sampleUpdate)])
        = runOps [("r1", some 10, sampleUpdate)]) ∧
    ((runOps [("r1", some 10, sampleUpdate)]).batch ≠ [] →
      (flushRemaining (runOps [("r1", some 10, sampleUpdate)])).writes
        = (runOps [("r1", some 10, sampleUpdate)]).writes
            ++ [(runOps [("r1", some 10, sampleUpdate)]).batch] ∧
      (flushRemaining (runOps [("r1", some 10, sampleUpdate)])).batch = []) :=
  batch_capacity_law [("r1", some 10, sampleUpdate)]

/-! ## C2: degraded flag and exit code -/

theorem foldl_or_any (run : List CallEvent) (p : CallEvent → Bool) :
    ∀ b : Bool, run.foldl (fun f e => f || p e) b = (b || run.any p) := by
  induction run with
  | nil => intro b; simp
  | cons e es ih =>
      intro b
      rw [List.foldl_cons, ih (b || p e), List.any_cons]
      rw [Bool.or_assoc]

theorem degradedFlagMain_eq_any (run : List CallEvent) :
    degradedFlagMain run = run.any (fun e => !e.ok) := by
  have h := foldl_or_any run (fun e => !e.ok) false
  simpa [degradedFlagMain] using h

theorem degradedFlagLegacy_eq_any (run : List CallEvent) :
    degradedFlagLegacy run
      = run.any (fun e => !e.ok && decide (e.kind = CallKind.writeCall)) := by
  have h := foldl_or_any run (fun e => !e.ok && decide (e.kind = CallKind.writeCall)) false
  simpa [degradedFlagLegacy] using h

theorem flagMain_true_iff (run : List CallEvent) :
    degradedFlagMain run = true ↔ ∃ e ∈ run, e.ok = false := by
  rw [degradedFlagMain_eq_any, List.any_eq_true]
  constructor
  · rintro ⟨e, he, hne⟩
    exact ⟨e, he, by simpa using hne⟩
  · rintro ⟨e, he, hef⟩
    exact ⟨e, he, by simp [hef]⟩

theorem flagMain_false_iff (run : List CallEvent) :
    degradedFlagMain run = false ↔ ∀ e ∈ run, e.ok = true := by
  constructor
  · intro hf e he
    by_contra hok
    have hef : e.ok = false := Bool.eq_false_iff.mpr hok
    have := (flagMain_true_iff run).mpr ⟨e, he, hef⟩
    rw [hf] at this
    exact Bool.noConfusion this
  · intro hall
    cases hf : degradedFlagMain run with
    | false => rfl
    | true =>
        rcases (flagMain_true_iff run).mp hf with ⟨e, he, hef⟩
        rw [hall e he] at hef
        exact Bool.noConfusion hef

theorem flagLegacy_true_iff (run : List CallEvent) :
    degradedFlagLegacy run = true ↔
      ∃ e ∈ run, e.ok = false ∧ e.kind = CallKind.writeCall := by
  rw [degradedFlagLegacy_eq_any, List.any_eq_true]
  constructor
  · rintro ⟨e, he, hp⟩
    rw [Bool.and_eq_true, Bool.not_eq_true', decide_eq_true_iff] at hp
    exact ⟨e, he, hp⟩
  · rintro ⟨e, he, hef, hk⟩
    exact ⟨e, he, by simp [hef, hk]⟩

theorem flagLegacy_false_iff (run : List CallEvent) :
    degradedFlagLegacy run = false ↔
      ∀ e ∈ run, e.kind = CallKind.writeCall → e.ok = true := by
  constructor
  · intro hf e he hk
    by_contra hok
    have hef : e.ok = false := Bool.eq_false_iff.mpr hok
    have := (flagLegacy_true_iff run).mpr ⟨e, he, hef, hk⟩
    rw [hf] at this
    exact Bool.noConfusion this
  · intro hall
    cases hf : degradedFlagLegacy run with
    | false => rfl
    | true =>
        rcases (flagLegacy_true_iff run).mp hf with ⟨e, he, hef, hk⟩
        rw [hall e he hk] at hef
        exact Bool.noConfusion hef

/-- C2 (amended): for a completed run of the batched engine
(src/unnamed/part_001), the exit status is 0 exactly when no lookup or bulk
write call failed and 1 exactly when at least one did; in the per-user
variant (src/index.js) a failed lookup leaves the error flag untouched, so
its exit status is 0 exactly when no bulk write call failed. -/
theorem exit_code_degraded (run : List CallEvent) :
    (exitCodeMain run = 0 ↔ ∀ e ∈ run, e.ok = true) ∧
    (exitCodeMain run = 1 ↔ ∃ e ∈ run, e.ok = false) ∧
    (exitCodeLegacy run = 0 ↔
      ∀ e ∈ run, e.kind = CallKind.writeCall → e.ok = true) := by
  refine ⟨?_, ?_, ?_⟩
  · rw [exitCodeMain]
    cases hf : degradedFlagMain run with
    | false => exact iff_of_true rfl ((flagMain_false_iff run).mp hf)
    | true =>
        constructor
        · intro h
          exact absurd h one_ne_zero
        · intro hall
          have hcontra := (flagMain_false_iff run).mpr hall
          rw [hf] at hcontra
          exact Bool.noConfusion hcontra
  · rw [exitCodeMain]
    cases hf : degradedFlagMain run with
    | true => exact iff_of_true rfl ((flagMain_true_iff run).mp hf)
    | false =>
        constructor
        · intro h
          exact absurd h zero_ne_one
        · intro hex
          have hcontra := (flagMain_true_iff run).mpr hex
          rw [hf] at hcontra
          exact Bool.noConfusion hcontra
  · rw [exitCodeLegacy]
    cases hf : degradedFlagLegacy run with
    | false => exact iff_of_true rfl ((flagLegacy_false_iff run).mp hf)
    | true =>
        constructor
        · intro h
          exact absurd h one_ne_zero
        · intro hall
          have hcontra := (flagLegacy_false_iff run).mpr hall
          rw [hf] at hcontra
          exact Bool.noConfusion hcontra

/-- Witness for the amended C2: a run of one successful lookup and one
failed write exits 1 in both variants; instantiates the theorem at that run. -/
theorem exit_code_degraded_witness :
    (exitCodeMain [CallEvent.mk CallKind.lookupCall true,
       CallEvent.mk CallKind.writeCall false] = 0 ↔
      ∀ e ∈ [CallEvent.mk CallKind.lookupCall true,
        CallEvent.mk CallKind.writeCall false], e.ok = true) ∧
    (exitCodeMain [CallEvent.mk CallKind.lookupCall true,
       CallEvent.mk CallKind.writeCall false] = 1 ↔
      ∃ e ∈ [CallEvent.mk CallKind.lookupCall true,
        CallEvent.mk CallKind.writeCall false], e.ok = false) ∧
    (exitCodeLegacy [CallEvent.mk CallKind.lookupCall true,
       CallEvent.mk CallKind.writeCall false] = 0 ↔
      ∀ e ∈ [CallEvent.mk CallKind.lookupCall true,
        CallEvent.mk CallKind.writeCall false],
        e.kind = CallKind.writeCall → e.ok = true) :=
  exit_code_degraded [CallEvent.mk CallKind.lookupCall true,
    CallEvent.mk CallKind.writeCall false]

/-- Counterexample to C2 as stated: in src/index.js a run whose only
failure is a single lookup call exits 0, not 1 (the per-user catch logs the
lookup error without setting the flag); the batched engine exits 1 on the
same run. -/
theorem legacy_lookup_failure_exits_zero :
    exitCodeLegacy [CallEvent.mk CallKind.lookupCall false] = 0 ∧
    exitCodeMain [CallEvent.mk CallKind.lookupCall false] = 1 ∧
    (0 : Nat) ≠ 1 :=
  ⟨rfl, rfl, by decide⟩

/-! ## C4 and C6: pagination -/

theorem ceilB_step (rem L : Nat) (hL : 0 < L) (h1 : 1 ≤ rem) :
    (rem + L - 1) / L = ((rem - L) + L - 1) / L + 1 := by
  have ha : (rem + L - 1) / L = (rem - 1) / L + 1 := by
    have hle : L ≤ rem + L - 1 := by omega
    have harg : rem + L - 1 - L = rem - 1 := by omega
    rw [Nat.div_eq_sub_div hL hle, harg]
  have hb : ((rem - L) + L - 1) / L = (rem - 1) / L := by
    by_cases hc : rem ≤ L
    · have h2 : (rem - L) + L - 1 = L - 1 := by omega
      rw [h2, Nat.div_eq_of_lt (by omega), Nat.div_eq_of_lt (by omega)]
    · have h2 : (rem - L) + L - 1 = rem - 1 := by omega
      rw [h2]
  omega

/-- Closed form of the `length < limit` pagination loop: starting at any
offset it processes exactly the remaining rows, advances the offset once per
full page, and issues one fetch per full page plus one final short fetch. -/
theorem runPagesA_spec {α : Type} (L : Nat) (hL : 0 < L) :
    ∀ (n : Nat) (rows : List α) (o : Nat) (acc : List α) (f : Nat),
      rows.length - o ≤ n →
      runPagesA rows L o acc f
        = (o + L * ((rows.length - o) / L), acc ++ rows.drop o,
           f + (rows.length - o) / L + 1) := by
  intro n
  induction n with
  | zero =>
      intro rows o acc f hn
      have hrem : rows.length - o = 0 := by omega
      have hdrop : rows.drop o = [] := List.drop_eq_nil_of_le (by omega)
      have hpg : pageAt rows o L = [] := by rw [pageAt, hdrop]; simp
      have hcond : ¬((pageAt rows o L).length = L ∧ 0 < L) := by
        rw [hpg]
        intro hcon
        obtain ⟨h1, h2⟩ := hcon
        simp only [List.length_nil] at h1
        omega
      rw [runPagesA, dif_neg hcond, hpg, hrem, hdrop]
      simp
  | succ n ih =>
      intro rows o acc f hn
      by_cases hfull : L ≤ rows.length - o
      · have hplen : (pageAt rows o L).length = L := by
          simp only [pageAt, List.length_take, List.length_drop]
          omega
        rw [runPagesA, dif_pos ⟨hplen, hL⟩,
            ih rows (o + L) (acc ++ pageAt rows o L) (f + 1) (by omega)]
        have hrw : rows.length - (o + L) = (rows.length - o) - L := by omega
        have hdiv : (rows.length - o) / L = ((rows.length - o) - L) / L + 1 :=
          Nat.div_eq_sub_div hL hfull
        simp only [Prod.mk.injEq]
        refine ⟨?_, ?_, ?_⟩
        · rw [hrw, hdiv, Nat.mul_add, Nat.mul_one]
          omega
        · rw [List.append_assoc]
          congr 1
          rw [pageAt, ← List.drop_drop, List.take_append_drop]
        · rw [hrw, hdiv]
          omega
      · have hlt : rows.length - o < L := by omega
        have hplen : (pageAt rows o L).length = rows.length - o := by
          simp only [pageAt, List.length_take, List.length_drop]
          omega
        have hcond : ¬((pageAt rows o L).length = L ∧ 0 < L) := by
          rw [hplen]
          intro hcon
          omega
        have hpg : pageAt rows o L = rows.drop o := by
          rw [pageAt]
          exact List.take_of_length_le (by simp only [List.length_drop]; omega)
        rw [runPagesA, dif_neg hcond, hpg, Nat.div_eq_of_lt hlt]
        simp

/-- Closed form of the `length === 0` pagination loop of src/unnamed/part_000:
it also processes all remaining rows, but advances the offset after every
non-empty page (short or not) and fetches once per non-empty page plus one
final empty fetch. -/
theorem runPagesB_spec {α : Type} (L : Nat) (hL : 0 < L) :
    ∀ (n : Nat) (rows : List α) (o : Nat) (acc : List α) (f : Nat),
      rows.length - o ≤ n →
      runPagesB rows L o acc f
        = (o + L * (((rows.length - o) + L - 1) / L), acc ++ rows.drop o,
           f + ((rows.length - o) + L - 1) / L + 1) := by
  intro n
  induction n with
  | zero =>
      intro rows o acc f hn
      have hrem : rows.length - o = 0 := by omega
      have hdrop : rows.drop o = [] := List.drop_eq_nil_of_le (by omega)
      have hpg : pageAt rows o L = [] := by rw [pageAt, hdrop]; simp
      have hcond : ¬((pageAt rows o L).length ≠ 0 ∧ 0 < L) := by
        rw [hpg]
        intro hcon
        exact hcon.1 rfl
      rw [runPagesB, dif_neg hcond, hrem, hdrop, Nat.div_eq_of_lt (by omega)]
      simp
  | succ n ih =>
      intro rows o acc f hn
      by_cases hpos : 0 < rows.length - o
      · have hplen : (pageAt rows o L).length ≠ 0 := by
          simp only [pageAt, List.length_take, List.length_drop]
          omega
        rw [runPagesB, dif_pos ⟨hplen, hL⟩,
            ih rows (o + L) (acc ++ pageAt rows o L) (f + 1) (by omega)]
        have hstep : ((rows.length - o) + L - 1) / L
            = ((rows.length - (o + L)) + L - 1) / L + 1 := by
          have hc := ceilB_step (rows.length - o) L hL (by omega)
          have hrw : rows.length - (o + L) = (rows.length - o) - L := by omega
          rw [hrw]
          exact hc
        simp only [Prod.mk.injEq]
        refine ⟨?_, ?_, ?_⟩
        · rw [hstep, Nat.mul_add, Nat.mul_one]
          omega
        · rw [List.append_assoc]
          congr 1
          rw [pageAt, ← List.drop_drop, List.take_append_drop]
        · rw [hstep]
          omega
      · have hrem : rows.length - o = 0 := by omega
        have hdrop : rows.drop o = [] := List.drop_eq_nil_of_le (by omega)
        have hpg : pageAt rows o L = [] := by rw [pageAt, hdrop]; simp
        have hcond : ¬((pageAt rows o L).length ≠ 0 ∧ 0 < L) := by
          rw [hpg]
          intro hcon
          exact hcon.1 rfl
        rw [runPagesB, dif_neg hcond, hrem, hdrop, Nat.div_eq_of_lt (by omega)]
        simp

theorem ceil_div_cases (N L : Nat) (hL : 0 < L) :
    (N + L - 1) / L = if N % L = 0 then N / L else N / L + 1 := by
  have hmod := Nat.div_add_mod N L
  have hr : N % L < L := Nat.mod_lt N hL
  by_cases h0 : N % L = 0
  · rw [if_pos h0]
    have hN : N + L - 1 = L * (N / L) + (L - 1) := by omega
    rw [hN, Nat.mul_add_div hL, Nat.div_eq_of_lt (show L - 1 < L by omega)]
    omega
  · rw [if_neg h0]
    have hN : N + L - 1 = L * (N / L) + (N % L + L - 1) := by omega
    rw [hN, Nat.mul_add_div hL]
    have h2 : N % L + L - 1 = L + (N % L - 1) := by omega
    rw [h2, Nat.add_div_left _ hL,
        Nat.div_eq_of_lt (show N % L - 1 < L by omega)]

/-- C6: the pagination loop of src/unnamed/part_001 and src/index.js
terminates (runPagesA is total), processes every row, issues exactly
N/L + 1 fetches — which is ceil(N/L) when L does not divide N and
ceil(N/L) + 1 exactly when it does (the last full page has exactly L rows;
for N = 0 the single empty fetch) — terminates on an empty source with one
fetch and no error, and its final offset is L times the number of full
pages, since the offset advances by L exactly after each full page and never
after the short final page. -/
theorem pagination_terminates_fetch_count (rows : List AggRow) (L : Nat)
    (hL : 0 < L) :
    (runPagesA rows L 0 [] 0).2.1 = rows ∧
    (runPagesA rows L 0 [] 0).2.2 = rows.length / L + 1 ∧
    ((runPagesA rows L 0 [] 0).2.2 = (rows.length + L - 1) / L ∨
     (runPagesA rows L 0 [] 0).2.2 = (rows.length + L - 1) / L + 1) ∧
    ((runPagesA rows L 0 [] 0).2.2 = (rows.length + L - 1) / L + 1 ↔
      L ∣ rows.length) ∧
    (runPagesA rows L 0 [] 0).1 = L * (rows.length / L) ∧
    (rows = [] → (runPagesA rows L 0 [] 0).2.2 = 1) := by
  have h := runPagesA_spec L hL rows.length rows 0 [] 0 (by omega)
  have h1 : (runPagesA rows L 0 [] 0).1 = L * (rows.length / L) := by
    rw [h]; simp
  have h2 : (runPagesA rows L 0 [] 0).2.1 = rows := by
    rw [h]; simp
  have h3 : (runPagesA rows L 0 [] 0).2.2 = rows.length / L + 1 := by
    rw [h]; simp
  have hceil := ceil_div_cases rows.length L hL
  refine ⟨h2, h3, ?_, ?_, h1, ?_⟩
  · by_cases h0 : rows.length % L = 0
    · right
      rw [h3, hceil, if_pos h0]
    · left
      rw [h3, hceil, if_neg h0]
  · by_cases h0 : rows.length % L = 0
    · rw [h3, hceil, if_pos h0]
      exact iff_of_true rfl (Nat.dvd_of_mod_eq_zero h0)
    · rw [h3, hceil, if_neg h0]
      constructor
      · intro hcon
        omega
      · intro hdvd
        exact absurd (Nat.mod_eq_zero_of_dvd hdvd) h0
  · intro he
    rw [h3, he]
    simp

/-- Witness for C6 at a single-row source with page size 2500. -/
theorem pagination_terminates_fetch_count_witness :
    (runPagesA [sampleRow] 2500 0 [] 0).2.1 = [sampleRow] ∧
    (runPagesA [sampleRow] 2500 0 [] 0).2.2 = [sampleRow].length / 2500 + 1 ∧
    ((runPagesA [sampleRow] 2500 0 [] 0).2.2
        = ([sampleRow].length + 2500 - 1) / 2500 ∨
     (runPagesA [sampleRow] 2500 0 [] 0).2.2
        = ([sampleRow].length + 2500 - 1) / 2500 + 1) ∧
    ((runPagesA [sampleRow] 2500 0 [] 0).2.2
        = ([sampleRow].length + 2500 - 1) / 2500 + 1 ↔ 2500 ∣ [sampleRow].length) ∧
    (runPagesA [sampleRow] 2500 0 [] 0).1 = 2500 * ([sampleRow].length / 2500) ∧
    ([sampleRow] = ([] : List AggRow) →
      (runPagesA [sampleRow] 2500 0 [] 0).2.2 = 1) :=
  pagination_terminates_fetch_count [sampleRow] 2500 (by omega)

/-- C4 (amended): in the `length < limit` loops (src/unnamed/part_001 and
src/index.js) a short non-empty page is fully processed and its fetch is the
last one (the loop stops), and an empty page stops the loop with nothing
processed and no error; in the `length === 0` loop (src/unnamed/part_000)
the short non-empty page is also fully processed, but the loop stops only
after one further, empty fetch. -/
theorem short_page_processed_then_stop (rows : List AggRow) (L : Nat)
    (hL : 0 < L) (hshort : rows.length < L) :
    ((runPagesA rows L 0 [] 0).2.1 = rows ∧ (runPagesA rows L 0 [] 0).2.2 = 1) ∧
    (rows ≠ [] →
      (runPagesB rows L 0 [] 0).2.1 = rows ∧ (runPagesB rows L 0 [] 0).2.2 = 2) ∧
    (rows = [] →
      (runPagesA rows L 0 [] 0).2.1 = [] ∧
      (runPagesB rows L 0 [] 0).2.1 = [] ∧ (runPagesB rows L 0 [] 0).2.2 = 1) := by
  have hA := runPagesA_spec L hL rows.length rows 0 [] 0 (by omega)
  have hB := runPagesB_spec L hL rows.length rows 0 [] 0 (by omega)
  have hdivA : rows.length / L = 0 := Nat.div_eq_of_lt hshort
  refine ⟨⟨by rw [hA]; simp, by rw [hA]; simp [hdivA]⟩, ?_, ?_⟩
  · intro hne
    have hpos : 0 < rows.length := List.length_pos.mpr hne
    have hceil : (rows.length + L - 1) / L = 1 := by
      have hle : L ≤ rows.length + L - 1 := by omega
      have harg : rows.length + L - 1 - L = rows.length - 1 := by omega
      rw [Nat.div_eq_sub_div hL hle, harg,
          Nat.div_eq_of_lt (show rows.length - 1 < L by omega)]
    constructor
    · rw [hB]; simp
    · rw [hB]
      simp only [Nat.sub_zero]
      rw [hceil]
  · intro he
    subst he
    have hz : (L - 1) / L = 0 := Nat.div_eq_of_lt (by omega)
    refine ⟨by rw [hA]; simp, by rw [hB]; simp, ?_⟩
    rw [hB]
    simp only [List.length_nil, Nat.sub_zero, Nat.zero_add]
    rw [hz]

/-- Witness for the amended C4: one row, page size 1000 (both variants). -/
theorem short_page_processed_then_stop_witness :
    (((runPagesA [sampleRow] 1000 0 [] 0).2.1 = [sampleRow] ∧
      (runPagesA [sampleRow] 1000 0 [] 0).2.2 = 1) ∧
     ([sampleRow] ≠ ([] : List AggRow) →
       (runPagesB [sampleRow] 1000 0 [] 0).2.1 = [sampleRow] ∧
       (runPagesB [sampleRow] 1000 0 [] 0).2.2 = 2) ∧
     ([sampleRow] = ([] : List AggRow) →
       (runPagesA [sampleRow] 1000 0 [] 0).2.1 = [] ∧
       (runPagesB [sampleRow] 1000 0 [] 0).2.1 = [] ∧
       (runPagesB [sampleRow] 1000 0 [] 0).2.2 = 1)) :=
  short_page_processed_then_stop [sampleRow] 1000 (by omega) (by simp)

/-- Counterexample to C4 as stated: in src/unnamed/part_000, the fetched
page of length 1 (strictly less than the limit 1000 and greater than zero)
is fully processed, but the pagination loop does not stop with it — a second
fetch is issued, so the run performs 2 fetches where the claim requires the
short page's fetch to be the last. -/
theorem short_page_does_not_stop_variantB :
    (pageAt [sampleRow] 0 1000).length = 1 ∧
    (1 : Nat) < 1000 ∧
    (runPagesB [sampleRow] 1000 0 [] 0).2.1 = [sampleRow] ∧
    (runPagesB [sampleRow] 1000 0 [] 0).2.2 = 2 ∧
    (2 : Nat) ≠ 1 := by
  have hB := runPagesB_spec 1000 (by omega) 1 [sampleRow] 0 [] 0 (by simp)
  refine ⟨by simp [pageAt], by omega, ?_, ?_, by omega⟩
  · rw [hB]
    simp
  · rw [hB]
    norm_num

end WakaSync
